import Mathlib

/-!
Shallow embedding of the order/payment reconciliation core of the
Telegram shop bot (`src/app.py`).

The embedding follows the source:
* Python dicts (insertion-ordered, unique keys) are association lists
  `List (String × _)`; `dictGet?` is `d.get(k)` and `dictSet` is
  `d[k] = v` (update in place when the key exists, append otherwise).
* Python floats paid in BTC are modelled as exact rationals `ℚ`;
  satoshi amounts are `ℤ`.  `pyRound` is Python's `round` (banker's
  rounding, half to even) used in `required_sats`.
* The Telegram / HTTP / filesystem environment is a record of oracles
  (`fileExists`, `sendOk`), and the Blockonomics balance call is passed
  in as an `Except` value; an exception raised by an external call is
  the `.error` / `sendOk = false` case.
* Each handler is a pure function from its inputs and the current
  in-memory order dict (plus the persisted copy `storage`, written by
  `save_json`) to its result; the structured reply type stands for the
  text messages sent to the user.
-/

set_option autoImplicit false

namespace ShopBot

/-! ## Python dict primitives -/

/-- `d.get(k)` on an insertion-ordered dict represented as an
association list: first (unique) matching key. -/
def dictGet? {α : Type} : List (String × α) → String → Option α
  | [], _ => none
  | p :: t, k => if p.1 = k then some p.2 else dictGet? t k

/-- `d[k] = v`: replace the value in place when the key is present
(keeping its position), otherwise append the new binding at the end —
exactly the behaviour of assignment into a Python dict. -/
def dictSet {α : Type} (l : List (String × α)) (k : String) (v : α) : List (String × α) :=
  if (dictGet? l k).isSome then
    l.map (fun p => if p.1 = k then (k, v) else p)
  else
    l ++ [(k, v)]

/-- Keys of an association list. -/
def dictKeys {α : Type} (l : List (String × α)) : List String :=
  l.map Prod.fst

/-! ## Python `int(...)` and `round(...)` -/

/-- Value of a decimal digit character, `none` on a non-digit. -/
def digitVal? (c : Char) : Option Nat :=
  if c.isDigit then some (c.toNat - 48) else none

/-- Parse a nonempty all-digit string of characters into a `Nat`. -/
def parseNatDigits (cs : List Char) : Option Nat :=
  if cs.isEmpty then none
  else cs.foldl (fun acc c => acc.bind (fun a => (digitVal? c).map (fun d => a * 10 + d)))
    (some 0)

/-- Surrounding whitespace stripped, as `int(...)` does before
parsing. -/
def pyStrip (cs : List Char) : List Char :=
  ((cs.dropWhile Char.isWhitespace).reverse.dropWhile Char.isWhitespace).reverse

/-- Python `int(s)` on a string: surrounding whitespace stripped, an
optional sign followed by decimal digits; anything else raises
(`none`). -/
def parseIntPy (s : String) : Option Int :=
  match pyStrip s.toList with
  | '-' :: rest => (parseNatDigits rest).map (fun n => -(n : Int))
  | '+' :: rest => (parseNatDigits rest).map (fun n => (n : Int))
  | cs => (parseNatDigits cs).map (fun n => (n : Int))

/-- Python `s or d` for strings: the empty string is falsy. -/
def pyOr (s d : String) : String :=
  if s = "" then d else s

/-- Python `round` on an exact rational: nearest integer, ties to the
even integer (banker's rounding). -/
def pyRound (q : ℚ) : ℤ :=
  let f : ℤ := ⌊q⌋
  let frac : ℚ := q - f
  if frac < 1/2 then f
  else if 1/2 < frac then f + 1
  else if f % 2 = 0 then f else f + 1

/-! ## Data model (`src/app.py` order dict literal, lines 271–280) -/

/-- A catalog item (`ITEMS[key]`). -/
structure Item where
  name : String
  price_btc : ℚ
  file_path : String
deriving DecidableEq, Repr

/-- An order record, keyed in `ORDERS` by its BTC address.  The fields
appear in the order of the dict literal in `button_callback`. -/
structure Order where
  item_key : String
  user_id : Option Int
  chat_id : Int
  address : String
  amount_btc : ℚ
  status : String
  txid : Option String
  received_sats : Int
deriving DecidableEq, Repr

/-- The order ledger `ORDERS`: a BTC-address-keyed dict of orders. -/
abbrev Ledger := List (String × Order)

/-- `required_sats = int(round(float(order["amount_btc"]) * 1e8))`. -/
def required_sats (o : Order) : Int :=
  pyRound (o.amount_btc * 100000000)

/-- External environment of a handler invocation: the catalog, the
filesystem (`os.path.exists`) and whether sending a document over
Telegram succeeds or raises. -/
structure Env where
  items : List (String × Item)
  fileExists : String → Bool
  sendOk : Bool

/-! ## Query-parameter helpers (`request.query_params`) -/

abbrev Params := List (String × String)

/-- `params.get(k, d)`. -/
def getParam (ps : Params) (k d : String) : String :=
  (dictGet? ps k).getD d

/-- `params.get(k)` with `None` default. -/
def getParam? (ps : Params) (k : String) : Option String :=
  dictGet? ps k

/-! ## The Blockonomics callback handler (`blockonomics_callback`,
`src/app.py` lines 381–448) -/

/-- Result of one invocation of the callback handler: HTTP status and
body, the in-memory `ORDERS` dict afterwards, the persisted copy
(`save_json(ORDERS_FILE, ORDERS)` writes `orders` into `storage`),
whether `send_document` was attempted, and whether it succeeded. -/
structure CbResult where
  httpStatus : Nat
  body : String
  orders : Ledger
  storage : Ledger
  tried : Bool
  sent : Bool
deriving DecidableEq, Repr

/-- The delivery attempt inside the callback: look the item up
(`ITEMS.get(order["item_key"], {})`), take its `file_path`; when the
path is truthy and exists, try to send the document — on success set
`status = "delivered"`, on a raised exception leave the status alone;
when the file is missing, send the FILE_MISSING message and leave the
status alone.  `o1` is the order with `received_sats`/`txid` already
updated; every branch stores it (mutation in place) at key `addr`.
Returns the updated dict and the (tried, sent) pair. -/
def cb_deliver (env : Env) (orders : Ledger) (addr : String) (o1 : Order) :
    Ledger × Bool × Bool :=
  match (dictGet? env.items o1.item_key).map Item.file_path with
  | some fpath =>
    if fpath ≠ "" ∧ env.fileExists fpath then
      if env.sendOk then
        (dictSet orders addr { o1 with status := "delivered" }, true, true)
      else
        (dictSet orders addr o1, true, false)
    else
      (dictSet orders addr o1, false, false)
  | none => (dictSet orders addr o1, false, false)

/-- The body of the `async with orders_lock:` update block for a
matched order: record `received_sats` and `txid`, deliver only when
`status == 2 and value_sats >= required_sats and order.get("status")
!= "delivered"`, otherwise set the status (back) to `"pending"`. -/
def cb_reconcile (env : Env) (orders : Ledger) (addr : String) (order : Order)
    (status value_sats : Int) (txid : Option String) : Ledger × Bool × Bool :=
  let o1 : Order := { order with received_sats := value_sats, txid := txid }
  if status = 2 ∧ value_sats ≥ required_sats order ∧ o1.status ≠ "delivered" then
    cb_deliver env orders addr o1
  else
    (dictSet orders addr { o1 with status := "pending" }, false, false)

/-- `blockonomics_callback`: check the shared secret (`403` on
mismatch), parse `status` and `value` (`400` when `int()` raises),
look the order up by `addr` (`200 ok` and no state change when
absent), otherwise run the reconciliation block and persist the dict
(`save_json`). -/
def blockonomics_callback (env : Env) (cbSecret : String) (ps : Params)
    (orders storage : Ledger) : CbResult :=
  if getParam ps "secret" "" ≠ cbSecret then
    ⟨403, "forbidden", orders, storage, false, false⟩
  else
    match parseIntPy (getParam ps "status" "-1"),
          parseIntPy (pyOr (getParam ps "value" "0") "0") with
    | some status, some value_sats =>
      match dictGet? orders (getParam ps "addr" "") with
      | none => ⟨200, "ok", orders, storage, false, false⟩
      | some order =>
        match cb_reconcile env orders (getParam ps "addr" "") order status value_sats
            (getParam? ps "txid") with
        | (orders', tried, sent) => ⟨200, "ok", orders', orders', tried, sent⟩
    | _, _ => ⟨400, "bad request", orders, storage, false, false⟩

/-! ## The manual confirm command (`confirm_cmd`, `src/app.py`
lines 302–347) -/

/-- The message `confirm_cmd` replies with, structured: which message
is sent and, for the shortfall reply, the three amounts interpolated
into it (`received`, `required`, `shortfall`, in BTC). -/
inductive ConfirmReply where
  | noPending
  | checkFailed (e : String)
  | fileMissing
  | delivered (itemName : String)
  | deliverFailed (e : String)
  | notConfirmed (received needed short : ℚ)
deriving DecidableEq, Repr

/-- Result of one `/confirm` invocation. -/
structure ConfirmResult where
  orders : Ledger
  storage : Ledger
  reply : ConfirmReply
  tried : Bool
  sent : Bool
deriving DecidableEq, Repr

/-- `for addr, od in reversed(list(ORDERS.items())): if od.get
("user_id") == uid and od.get("status") == "pending": …` — the first
match in reverse insertion order, together with its dict key. -/
def find_last_pending (orders : Ledger) (uid : Option Int) :
    Option (String × Order) :=
  orders.reverse.find? (fun p => p.2.user_id = uid ∧ p.2.status = "pending")

/-- `confirm_cmd`: find the latest pending order of the requesting
user (reply NO_PENDING if none), poll the confirmed balance (the
`balance` argument is the result of `blockonomics_confirmed_btc`,
`.error` when it raised), and when `received + 1e-12 >= required`
attempt delivery exactly as the source does; otherwise report the
shortfall `required - received`.  Only a successful send mutates the
ledger (sets `status = "delivered"`) and persists it. -/
def confirm_cmd (env : Env) (balance : Except String ℚ) (uid : Option Int)
    (orders storage : Ledger) : ConfirmResult :=
  match find_last_pending orders uid with
  | none => ⟨orders, storage, .noPending, false, false⟩
  | some (addr, od) =>
    match balance with
    | .error e => ⟨orders, storage, .checkFailed e, false, false⟩
    | .ok received =>
      if received + 1/1000000000000 ≥ od.amount_btc then
        match (dictGet? env.items od.item_key).map Item.file_path with
        | some fpath =>
          if fpath ≠ "" ∧ env.fileExists fpath then
            if env.sendOk then
              ⟨dictSet orders addr { od with status := "delivered" },
               dictSet orders addr { od with status := "delivered" },
               .delivered (((dictGet? env.items od.item_key).map Item.name).getD ""),
               true, true⟩
            else
              ⟨orders, storage, .deliverFailed "send_document raised", true, false⟩
          else
            ⟨orders, storage, .fileMissing, false, false⟩
        | none => ⟨orders, storage, .fileMissing, false, false⟩
      else
        ⟨orders, storage,
         .notConfirmed received od.amount_btc (od.amount_btc - received), false, false⟩

/-! ## Address issuance and the buy flow (`blockonomics_new_address`,
lines 160–175, and the `item_` branch of `button_callback`,
lines 255–297) -/

/-- What the provider's `new_address` endpoint did: `none` when the
HTTP round trip itself raised (unreachable), otherwise the response
status together with `data.get("address")` (`none` when the field is
absent). -/
abbrev GatewayResp := Option (Nat × Option String)

/-- `blockonomics_new_address`: raise when the API key is unset, when
the HTTP call raises, when the status is not 200, or when the decoded
body has no truthy `address` (`if not address`). -/
def blockonomics_new_address (apiKey : String) (resp : GatewayResp) :
    Except String String :=
  if apiKey = "" then .error "BLOCKONOMICS_API_KEY not set"
  else
    match resp with
    | none => .error "connection error"
    | some (st, addrField) =>
      if st ≠ 200 then .error ("new_address failed: HTTP " ++ toString st)
      else
        match addrField with
        | none => .error "No address returned"
        | some a => if a = "" then .error "No address returned" else .ok a

/-- The reply the buy flow sends, structured. -/
inductive BuyReply where
  | itemGone
  | gatewayError (e : String)
  | invoice (address : String) (price : ℚ) (itemName : String)
deriving DecidableEq, Repr

/-- Result of one buy attempt. -/
structure BuyResult where
  orders : Ledger
  storage : Ledger
  reply : BuyReply
deriving DecidableEq, Repr

/-- The `item_` branch of `button_callback`: look the item up
(`ITEMS.get`), request a fresh address, and only on success build the
order dict, insert it under the address and persist; any exception
from `blockonomics_new_address` is caught, reported to the buyer, and
the handler returns before any order is created. -/
def buy_item (items : List (String × Item)) (apiKey : String) (resp : GatewayResp)
    (item_key : String) (uid : Option Int) (chat : Int)
    (orders storage : Ledger) : BuyResult :=
  match dictGet? items item_key with
  | none => ⟨orders, storage, .itemGone⟩
  | some item =>
    match blockonomics_new_address apiKey resp with
    | .error e => ⟨orders, storage, .gatewayError e⟩
    | .ok address =>
      let order : Order :=
        { item_key := item_key
          user_id := uid
          chat_id := chat
          address := address
          amount_btc := item.price_btc
          status := "pending"
          txid := none
          received_sats := 0 }
      let orders' := dictSet orders address order
      ⟨orders', orders', .invoice address item.price_btc item.name⟩

/-! ## JSON persistence (`save_json` / `load_json`, lines 66–82)

`save_json` serialises the orders dict with `json.dump` and atomically
replaces the file; `load_json` reads it back with `json.load` (falling
back to the default when the file is absent or unparsable).  We model
the stored file at the JSON-value level: `Json` is the image of
Python's JSON data model (ints and floats are distinct, as in Python),
an order dict serialises field by field, and reading an object back
into a dict folds its key/value pairs left to right — duplicate keys
last-writer-wins, exactly like Python's `dict`. -/

inductive Json where
  | null
  | bool (b : Bool)
  | int (n : Int)
  | float (q : ℚ)
  | str (s : String)
  | arr (xs : List Json)
  | obj (kvs : List (String × Json))

/-- Serialise an optional int field (`None` → `null`). -/
def optIntToJson : Option Int → Json
  | none => .null
  | some n => .int n

/-- Serialise an optional string field (`None` → `null`). -/
def optStrToJson : Option String → Json
  | none => .null
  | some s => .str s

/-- Serialise one order dict, fields in source order. -/
def orderToJson (o : Order) : Json :=
  .obj [("item_key", .str o.item_key),
        ("user_id", optIntToJson o.user_id),
        ("chat_id", .int o.chat_id),
        ("address", .str o.address),
        ("amount_btc", .float o.amount_btc),
        ("status", .str o.status),
        ("txid", optStrToJson o.txid),
        ("received_sats", .int o.received_sats)]

/-- `save_json(ORDERS_FILE, ORDERS)`: the JSON document written to
disk for a ledger. -/
def save_json_orders (l : Ledger) : Json :=
  .obj (l.map (fun p => (p.1, orderToJson p.2)))

/-- Decode an optional int field. -/
def jsonToOptInt : Json → Option (Option Int)
  | .null => some none
  | .int n => some (some n)
  | _ => none

/-- Decode an optional string field. -/
def jsonToOptStr : Json → Option (Option String)
  | .null => some none
  | .str s => some (some s)
  | _ => none

/-- Decode one order dict. -/
def jsonToOrder : Json → Option Order
  | .obj [("item_key", .str ik), ("user_id", uj), ("chat_id", .int cid),
          ("address", .str a), ("amount_btc", .float ab), ("status", .str st),
          ("txid", tj), ("received_sats", .int rs)] =>
    match jsonToOptInt uj, jsonToOptStr tj with
    | some uid, some txid =>
      some { item_key := ik, user_id := uid, chat_id := cid, address := a,
             amount_btc := ab, status := st, txid := txid, received_sats := rs }
    | _, _ => none
  | _ => none

/-- Decode every value of a stored JSON object as an order. -/
def decodeOrders : List (String × Json) → Option (List (String × Order))
  | [] => some []
  | p :: t =>
    match jsonToOrder p.2, decodeOrders t with
    | some o, some rest => some ((p.1, o) :: rest)
    | _, _ => none

/-- Read a JSON object back as an orders dict: decode each value, then
build the dict pair by pair (`dict(pairs)` — a duplicate key keeps its
first position and its last value, like Python). -/
def jsonToLedger (j : Json) : Option Ledger :=
  match j with
  | .obj kvs =>
    (decodeOrders kvs).map (fun ps => ps.foldl (fun acc p => dictSet acc p.1 p.2) [])
  | _ => none

/-- `load_json(ORDERS_FILE, {})` for the orders file: the default `{}`
when the file is absent or does not decode, otherwise the stored
ledger. -/
def load_json_orders (stored : Option Json) : Ledger :=
  match stored with
  | none => []
  | some j => (jsonToLedger j).getD []

/-! ## Lemmas about the dict primitives -/

theorem dictGet?_map_set {α : Type} (l : List (String × α)) (k : String) (v : α)
    (h : (dictGet? l k).isSome) :
    dictGet? (l.map (fun p => if p.1 = k then (k, v) else p)) k = some v := by
  induction l with
  | nil => simp [dictGet?] at h
  | cons a t ih =>
    by_cases hk : a.1 = k
    · simp [dictGet?, hk]
    · simp only [dictGet?, hk, if_false] at h
      simp [dictGet?, hk, ih h]

theorem dictGet?_append {α : Type} (l1 l2 : List (String × α)) (k : String) :
    dictGet? (l1 ++ l2) k = ((dictGet? l1 k).or (dictGet? l2 k)) := by
  induction l1 with
  | nil => simp [dictGet?]
  | cons a t ih =>
    by_cases hk : a.1 = k <;> simp [dictGet?, hk, ih]

theorem dictGet?_map_set_ne {α : Type} (l : List (String × α)) (k k' : String) (v : α)
    (h : k' ≠ k) :
    dictGet? (l.map (fun p => if p.1 = k then (k, v) else p)) k' = dictGet? l k' := by
  induction l with
  | nil => rfl
  | cons a t ih =>
    rw [List.map_cons]
    by_cases hk : a.1 = k
    · rw [if_pos hk]
      show (if k = k' then some v else _) = _
      rw [if_neg (fun hh : k = k' => h hh.symm)]
      show _ = (if a.1 = k' then some a.2 else dictGet? t k')
      rw [if_neg (fun hh : a.1 = k' => h (hk ▸ hh).symm), ih]
    · rw [if_neg hk]
      show (if a.1 = k' then some a.2 else _) = (if a.1 = k' then some a.2 else _)
      by_cases hk' : a.1 = k'
      · rw [if_pos hk', if_pos hk']
      · rw [if_neg hk', if_neg hk', ih]

theorem dictGet?_dictSet_self {α : Type} (l : List (String × α)) (k : String) (v : α) :
    dictGet? (dictSet l k v) k = some v := by
  unfold dictSet
  by_cases h : (dictGet? l k).isSome
  · rw [if_pos h]
    exact dictGet?_map_set l k v h
  · rw [if_neg h, dictGet?_append]
    have h0 : dictGet? l k = none := Option.not_isSome_iff_eq_none.mp h
    simp [h0, dictGet?]

theorem dictGet?_dictSet_ne {α : Type} (l : List (String × α)) (k : String) (v : α)
    (k' : String) (h : k' ≠ k) :
    dictGet? (dictSet l k v) k' = dictGet? l k' := by
  unfold dictSet
  by_cases hs : (dictGet? l k).isSome
  · rw [if_pos hs]
    exact dictGet?_map_set_ne l k k' v h
  · rw [if_neg hs, dictGet?_append]
    have : dictGet? [(k, v)] k' = none := by
      simp [dictGet?, if_neg (fun hh : k = k' => h hh.symm)]
    rw [this]
    cases dictGet? l k' <;> rfl

theorem dictGet?_eq_none_of_not_mem_keys {α : Type} (l : List (String × α)) (k : String)
    (h : k ∉ dictKeys l) : dictGet? l k = none := by
  induction l with
  | nil => rfl
  | cons a t ih =>
    simp only [dictKeys, List.map_cons, List.mem_cons, not_or] at h
    simp only [dictGet?, if_neg (fun hh : a.1 = k => h.1 hh.symm)]
    exact ih (by simpa [dictKeys] using h.2)

/-! ## Lemmas about `List.find?` used for the pending-order scan -/

theorem find?_split {α : Type} (p : α → Bool) (l : List α) (a : α)
    (h : l.find? p = some a) :
    ∃ l1 l2, l = l1 ++ a :: l2 ∧ (∀ x ∈ l1, p x = false) ∧ p a = true := by
  induction l with
  | nil => simp [List.find?] at h
  | cons b t ih =>
    by_cases hb : p b
    · rw [List.find?_cons_of_pos _ hb] at h
      obtain rfl : b = a := by injection h
      exact ⟨[], t, rfl, by simp, hb⟩
    · rw [List.find?_cons_of_neg _ (by simpa using hb)] at h
      obtain ⟨l1, l2, hl, hfalse, hpa⟩ := ih h
      exact ⟨b :: l1, l2, by simp [hl], by
        intro x hx
        rcases List.mem_cons.mp hx with rfl | hx
        · simpa using hb
        · exact hfalse x hx, hpa⟩

/-! ## Characterisation of the callback handler -/

theorem blockonomics_callback_secret_fail (env : Env) (sec : String) (ps : Params)
    (orders storage : Ledger) (h : getParam ps "secret" "" ≠ sec) :
    blockonomics_callback env sec ps orders storage =
      ⟨403, "forbidden", orders, storage, false, false⟩ := by
  unfold blockonomics_callback
  rw [if_pos h]

theorem blockonomics_callback_matched (env : Env) (sec : String) (ps : Params)
    (orders storage : Ledger) (st v : Int) (order : Order)
    (hsec : getParam ps "secret" "" = sec)
    (hst : parseIntPy (getParam ps "status" "-1") = some st)
    (hv : parseIntPy (pyOr (getParam ps "value" "0") "0") = some v)
    (hlook : dictGet? orders (getParam ps "addr" "") = some order) :
    blockonomics_callback env sec ps orders storage =
      ⟨200, "ok",
        (cb_reconcile env orders (getParam ps "addr" "") order st v (getParam? ps "txid")).1,
        (cb_reconcile env orders (getParam ps "addr" "") order st v (getParam? ps "txid")).1,
        (cb_reconcile env orders (getParam ps "addr" "") order st v (getParam? ps "txid")).2.1,
        (cb_reconcile env orders (getParam ps "addr" "") order st v (getParam? ps "txid")).2.2⟩ := by
  unfold blockonomics_callback
  rw [if_neg (by rw [hsec]; exact fun hh => hh rfl), hst, hv, hlook]

theorem blockonomics_callback_unmatched (env : Env) (sec : String) (ps : Params)
    (orders storage : Ledger) (st v : Int)
    (hsec : getParam ps "secret" "" = sec)
    (hst : parseIntPy (getParam ps "status" "-1") = some st)
    (hv : parseIntPy (pyOr (getParam ps "value" "0") "0") = some v)
    (hlook : dictGet? orders (getParam ps "addr" "") = none) :
    blockonomics_callback env sec ps orders storage =
      ⟨200, "ok", orders, storage, false, false⟩ := by
  unfold blockonomics_callback
  rw [if_neg (by rw [hsec]; exact fun hh => hh rfl), hst, hv, hlook]

/-- When the matched order is already `delivered`, the guard in the
delivery condition fails, so the `else` branch runs: the order is
stored with the reported amount and txid and its status explicitly
reset to `"pending"`, and no send is attempted. -/
theorem cb_reconcile_delivered (env : Env) (orders : Ledger) (addr : String)
    (order : Order) (st v : Int) (txid : Option String)
    (h : order.status = "delivered") :
    cb_reconcile env orders addr order st v txid =
      (dictSet orders addr
        { order with received_sats := v, txid := txid, status := "pending" },
       false, false) := by
  unfold cb_reconcile
  rw [if_neg]
  rintro ⟨-, -, hne⟩
  exact hne h

/-- All conditions for delivery hold and the send succeeds. -/
theorem cb_reconcile_deliver_success (env : Env) (orders : Ledger) (addr : String)
    (order : Order) (st v : Int) (txid : Option String) (fpath : String)
    (hcond : st = 2 ∧ v ≥ required_sats order ∧ order.status ≠ "delivered")
    (hfp : (dictGet? env.items order.item_key).map Item.file_path = some fpath)
    (hex : fpath ≠ "" ∧ env.fileExists fpath) (hsend : env.sendOk = true) :
    cb_reconcile env orders addr order st v txid =
      (dictSet orders addr
        { order with received_sats := v, txid := txid, status := "delivered" },
       true, true) := by
  unfold cb_reconcile cb_deliver
  rw [if_pos hcond]
  simp only [hfp]
  rw [if_pos hex, if_pos hsend]

/-- Master shape lemma for the reconciliation block: whatever branch
runs, the result dict is the input with the matched order replaced by
one whose `received_sats` and `txid` are the reported values and whose
other identifying fields are untouched; `"delivered"` is only ever
written together with a successful send, and when no send succeeded a
previously pending order is still pending. -/
theorem cb_reconcile_fields (env : Env) (orders : Ledger) (addr : String)
    (order : Order) (st v : Int) (txid : Option String) :
    ∃ o' : Order,
      (cb_reconcile env orders addr order st v txid).1 = dictSet orders addr o' ∧
      o'.received_sats = v ∧ o'.txid = txid ∧
      o'.item_key = order.item_key ∧ o'.user_id = order.user_id ∧
      o'.chat_id = order.chat_id ∧ o'.address = order.address ∧
      o'.amount_btc = order.amount_btc ∧
      (o'.status = "delivered" →
        (cb_reconcile env orders addr order st v txid).2.2 = true) ∧
      ((cb_reconcile env orders addr order st v txid).2.2 = false →
        order.status = "pending" → o'.status = "pending") := by
  unfold cb_reconcile cb_deliver
  by_cases hc : st = 2 ∧ v ≥ required_sats order ∧
      ({ order with received_sats := v, txid := txid } : Order).status ≠ "delivered"
  · rw [if_pos hc]
    cases hfp : (dictGet? env.items
        ({ order with received_sats := v, txid := txid } : Order).item_key).map
        Item.file_path with
    | none =>
      exact ⟨{ order with received_sats := v, txid := txid },
        rfl, rfl, rfl, rfl, rfl, rfl, rfl, rfl,
        fun hd => absurd hd hc.2.2, fun _ hp => hp⟩
    | some fpath =>
      simp only [hfp]
      by_cases hex : fpath ≠ "" ∧ env.fileExists fpath
      · rw [if_pos hex]
        by_cases hsend : env.sendOk
        · rw [if_pos hsend]
          exact ⟨{ order with received_sats := v, txid := txid, status := "delivered" },
            rfl, rfl, rfl, rfl, rfl, rfl, rfl, rfl,
            fun _ => rfl, fun hff _ => by cases hff⟩
        · rw [if_neg hsend]
          exact ⟨{ order with received_sats := v, txid := txid },
            rfl, rfl, rfl, rfl, rfl, rfl, rfl, rfl,
            fun hd => absurd hd hc.2.2, fun _ hp => hp⟩
      · rw [if_neg hex]
        exact ⟨{ order with received_sats := v, txid := txid },
          rfl, rfl, rfl, rfl, rfl, rfl, rfl, rfl,
          fun hd => absurd hd hc.2.2, fun _ hp => hp⟩
  · rw [if_neg hc]
    exact ⟨{ order with received_sats := v, txid := txid, status := "pending" },
      rfl, rfl, rfl, rfl, rfl, rfl, rfl, rfl,
      fun hd => by simp at hd, fun _ _ => rfl⟩

/-- The reconciliation block never turns a non-`delivered` order into a
`delivered` one without a successful send. -/
theorem cb_reconcile_no_silent_delivery (env : Env) (orders : Ledger) (addr : String)
    (order : Order) (st v : Int) (txid : Option String) (a : String)
    (horder : dictGet? orders addr = some order)
    (hsent : (cb_reconcile env orders addr order st v txid).2.2 = false)
    (hpend : (dictGet? orders a).map Order.status = some "pending") :
    (dictGet? (cb_reconcile env orders addr order st v txid).1 a).map Order.status
      = some "pending" := by
  obtain ⟨o', h1, -, -, -, -, -, -, -, -, h2⟩ :=
    cb_reconcile_fields env orders addr order st v txid
  rw [h1]
  by_cases ha : a = addr
  · subst ha
    rw [dictGet?_dictSet_self]
    rw [horder] at hpend
    have hps : order.status = "pending" := by simpa using hpend
    simp [h2 hsent hps]
  · rw [dictGet?_dictSet_ne _ _ _ _ ha]
    exact hpend

/-! ## Characterisation of the confirm command -/

theorem find_last_pending_none (orders : Ledger) (uid : Option Int)
    (h : ∀ p ∈ orders, ¬(p.2.user_id = uid ∧ p.2.status = "pending")) :
    find_last_pending orders uid = none := by
  unfold find_last_pending
  rw [List.find?_eq_none]
  intro x hx
  simpa using h x (List.mem_reverse.mp hx)

theorem find_last_pending_spec (orders : Ledger) (uid : Option Int)
    (addr : String) (od : Order)
    (h : find_last_pending orders uid = some (addr, od)) :
    (addr, od) ∈ orders ∧ od.user_id = uid ∧ od.status = "pending" ∧
    ∃ l1 l2, orders = l1 ++ (addr, od) :: l2 ∧
      ∀ q ∈ l2, ¬(q.2.user_id = uid ∧ q.2.status = "pending") := by
  obtain ⟨r1, r2, hrev, hfalse, hpa⟩ := find?_split _ _ _ h
  have hpred : od.user_id = uid ∧ od.status = "pending" := by simpa using hpa
  have horders : orders = r2.reverse ++ (addr, od) :: r1.reverse := by
    have h2 := congrArg List.reverse hrev
    rw [List.reverse_reverse] at h2
    simpa [List.reverse_append] using h2
  refine ⟨?_, hpred.1, hpred.2, r2.reverse, r1.reverse, horders, ?_⟩
  · rw [horders]; simp
  · intro q hq
    have hq' : q ∈ r1 := List.mem_reverse.mp hq
    simpa using hfalse q hq'

theorem confirm_cmd_none (env : Env) (balance : Except String ℚ) (uid : Option Int)
    (orders storage : Ledger)
    (h : find_last_pending orders uid = none) :
    confirm_cmd env balance uid orders storage =
      ⟨orders, storage, .noPending, false, false⟩ := by
  unfold confirm_cmd
  rw [h]

theorem confirm_cmd_shortfall (env : Env) (uid : Option Int)
    (orders storage : Ledger) (addr : String) (od : Order) (received : ℚ)
    (hf : find_last_pending orders uid = some (addr, od))
    (hlt : ¬ received + 1/1000000000000 ≥ od.amount_btc) :
    confirm_cmd env (.ok received) uid orders storage =
      ⟨orders, storage,
       .notConfirmed received od.amount_btc (od.amount_btc - received),
       false, false⟩ := by
  unfold confirm_cmd
  rw [hf]
  dsimp only
  rw [if_neg hlt]

/-- Master shape lemma for `/confirm`: either nothing is mutated or
persisted and no send succeeded, or the scan selected an order, it was
stored back with status `"delivered"`, the dict was persisted, and the
send succeeded. -/
theorem confirm_cmd_cases (env : Env) (balance : Except String ℚ) (uid : Option Int)
    (orders storage : Ledger) :
    ((confirm_cmd env balance uid orders storage).orders = orders ∧
     (confirm_cmd env balance uid orders storage).storage = storage ∧
     (confirm_cmd env balance uid orders storage).sent = false) ∨
    (∃ addr od, find_last_pending orders uid = some (addr, od) ∧
      (confirm_cmd env balance uid orders storage).orders
        = dictSet orders addr { od with status := "delivered" } ∧
      (confirm_cmd env balance uid orders storage).storage
        = (confirm_cmd env balance uid orders storage).orders ∧
      (confirm_cmd env balance uid orders storage).sent = true) := by
  unfold confirm_cmd
  cases hf : find_last_pending orders uid with
  | none => exact .inl ⟨rfl, rfl, rfl⟩
  | some p =>
    obtain ⟨addr, od⟩ := p
    cases balance with
    | error e => exact .inl ⟨rfl, rfl, rfl⟩
    | ok received =>
      dsimp only
      by_cases hge : received + 1/1000000000000 ≥ od.amount_btc
      · rw [if_pos hge]
        cases hfp : (dictGet? env.items od.item_key).map Item.file_path with
        | none => exact .inl ⟨rfl, rfl, rfl⟩
        | some fpath =>
          dsimp only
          by_cases hex : fpath ≠ "" ∧ env.fileExists fpath
          · rw [if_pos hex]
            by_cases hsend : env.sendOk
            · rw [if_pos hsend]
              exact .inr ⟨addr, od, rfl, rfl, rfl, rfl⟩
            · rw [if_neg hsend]
              exact .inl ⟨rfl, rfl, rfl⟩
          · rw [if_neg hex]
            exact .inl ⟨rfl, rfl, rfl⟩
      · rw [if_neg hge]
        exact .inl ⟨rfl, rfl, rfl⟩

/-- A successful delivery through `/confirm`: all conditions hold. -/
theorem confirm_cmd_success (env : Env) (uid : Option Int)
    (orders storage : Ledger) (addr : String) (od : Order) (received : ℚ)
    (fpath : String)
    (hf : find_last_pending orders uid = some (addr, od))
    (hge : received + 1/1000000000000 ≥ od.amount_btc)
    (hfp : (dictGet? env.items od.item_key).map Item.file_path = some fpath)
    (hex : fpath ≠ "" ∧ env.fileExists fpath) (hsend : env.sendOk = true) :
    confirm_cmd env (.ok received) uid orders storage =
      ⟨dictSet orders addr { od with status := "delivered" },
       dictSet orders addr { od with status := "delivered" },
       .delivered (((dictGet? env.items od.item_key).map Item.name).getD ""),
       true, true⟩ := by
  unfold confirm_cmd
  rw [hf]
  dsimp only
  rw [if_pos hge]
  simp only [hfp]
  rw [if_pos hex, if_pos hsend]

/-! ## The failing cases of address issuance -/

theorem blockonomics_new_address_fails (apiKey : String) (resp : GatewayResp)
    (hfail : resp = none ∨ (∃ st d, resp = some (st, d) ∧ st ≠ 200) ∨
             (∃ st, resp = some (st, none)) ∨ (∃ st, resp = some (st, some ""))) :
    ∃ e, blockonomics_new_address apiKey resp = .error e := by
  unfold blockonomics_new_address
  by_cases hk : apiKey = ""
  · exact ⟨_, by rw [if_pos hk]⟩
  · rw [if_neg hk]
    rcases hfail with rfl | ⟨st, d, rfl, hst⟩ | ⟨st, rfl⟩ | ⟨st, rfl⟩
    · exact ⟨_, rfl⟩
    · exact ⟨_, by dsimp only; rw [if_pos hst]⟩
    · by_cases hst : st ≠ 200
      · exact ⟨_, by dsimp only; rw [if_pos hst]⟩
      · exact ⟨_, by dsimp only; rw [if_neg hst]⟩
    · by_cases hst : st ≠ 200
      · exact ⟨_, by dsimp only; rw [if_pos hst]⟩
      · refine ⟨"No address returned", ?_⟩
        dsimp only
        rw [if_neg hst, if_pos rfl]

/-! ## Round trip of the JSON encoding of the ledger -/

theorem jsonToOrder_orderToJson (o : Order) :
    jsonToOrder (orderToJson o) = some o := by
  obtain ⟨ik, uid, cid, a, ab, st, tx, rs⟩ := o
  cases uid <;> cases tx <;> rfl

theorem decodeOrders_encode (l : Ledger) :
    decodeOrders (l.map (fun p => (p.1, orderToJson p.2))) = some l := by
  induction l with
  | nil => rfl
  | cons a t ih =>
    rw [List.map_cons]
    unfold decodeOrders
    rw [jsonToOrder_orderToJson, ih]

theorem foldl_dictSet_append {α : Type} (l acc : List (String × α))
    (hdisj : ∀ p ∈ l, dictGet? acc p.1 = none)
    (hnodup : (dictKeys l).Nodup) :
    l.foldl (fun acc p => dictSet acc p.1 p.2) acc = acc ++ l := by
  induction l generalizing acc with
  | nil => simp
  | cons a t ih =>
    rw [List.foldl_cons]
    have hset : dictSet acc a.1 a.2 = acc ++ [a] := by
      unfold dictSet
      rw [if_neg (by rw [hdisj a (by simp)]; exact fun h => by cases h)]
    rw [hset]
    rw [ih (acc ++ [a]) ?_ ?_]
    · simp
    · intro p hp
      rw [dictGet?_append]
      rw [hdisj p (by simp [hp])]
      have hne : a.1 ≠ p.1 := by
        simp only [dictKeys, List.map_cons, List.nodup_cons] at hnodup
        exact fun h => hnodup.1 (h ▸ List.mem_map_of_mem Prod.fst hp)
      simp [dictGet?, if_neg hne]
    · simp only [dictKeys, List.map_cons, List.nodup_cons] at hnodup
      exact hnodup.2

theorem jsonToLedger_save (l : Ledger) (h : (dictKeys l).Nodup) :
    jsonToLedger (save_json_orders l) = some l := by
  unfold jsonToLedger save_json_orders
  dsimp only
  rw [decodeOrders_encode, Option.map_some']
  rw [foldl_dictSet_append l [] (fun p _ => rfl) h]
  rfl

/-- In a dict with no duplicate keys, a member pair is what lookup
returns for its key. -/
theorem dictGet?_of_mem_nodup {α : Type} (l : List (String × α)) (k : String) (v : α)
    (hmem : (k, v) ∈ l) (hnodup : (dictKeys l).Nodup) :
    dictGet? l k = some v := by
  induction l with
  | nil => cases hmem
  | cons a t ih =>
    simp only [dictKeys, List.map_cons, List.nodup_cons] at hnodup
    rcases List.mem_cons.mp hmem with rfl | hmem'
    · simp [dictGet?]
    · have hne : ¬ a.1 = k := by
        intro hh
        exact hnodup.1 (hh ▸ List.mem_map_of_mem Prod.fst hmem')
      simp only [dictGet?, if_neg hne]
      exact ih hmem' hnodup.2

theorem blockonomics_callback_parse_fail (env : Env) (sec : String) (ps : Params)
    (orders storage : Ledger)
    (hsec : getParam ps "secret" "" = sec)
    (h : parseIntPy (getParam ps "status" "-1") = none ∨
         parseIntPy (pyOr (getParam ps "value" "0") "0") = none) :
    blockonomics_callback env sec ps orders storage =
      ⟨400, "bad request", orders, storage, false, false⟩ := by
  unfold blockonomics_callback
  rw [if_neg (by rw [hsec]; exact fun hh => hh rfl)]
  rcases h with h | h
  · rw [h]
  · rw [h]
    cases parseIntPy (getParam ps "status" "-1") <;> rfl

/-! ## Concrete fixtures used by the closed instances below -/

/-- Environment: the default `item1` from the source's `ITEMS`
defaults, every file path exists, sends succeed. -/
def envOK : Env :=
  { items := [("item1", { name := "Dark Secret Card", price_btc := 1/10000,
                          file_path := "items/secret.pdf" })],
    fileExists := fun _ => true,
    sendOk := true }

/-- A pending order for `item1` (0.0001 BTC due), nothing received. -/
def orderPending : Order :=
  { item_key := "item1", user_id := some 7, chat_id := 99, address := "a1",
    amount_btc := 1/10000, status := "pending", txid := none, received_sats := 0 }

/-- The same order after a completed delivery. -/
def orderDelivered : Order :=
  { item_key := "item1", user_id := some 7, chat_id := 99, address := "a1",
    amount_btc := 1/10000, status := "delivered", txid := some "t0",
    received_sats := 10000 }

/-- Fully-confirmed callback for `a1` paying the full 10000 sats. -/
def psConfirmed : Params :=
  [("secret", "s"), ("status", "2"), ("addr", "a1"), ("value", "10000"), ("txid", "t1")]

/-- Partially-confirmed callback for `a1` (status 1, 5000 sats). -/
def psPartial : Params :=
  [("secret", "s"), ("status", "1"), ("addr", "a1"), ("value", "5000"), ("txid", "t1")]

/-- Fully-confirmed callback for an address bound to no order. -/
def psUnknown : Params :=
  [("secret", "s"), ("status", "2"), ("addr", "zz"), ("value", "10000"), ("txid", "t1")]

/-- Callback with no `value` parameter at all. -/
def psNoValue : Params :=
  [("secret", "s"), ("status", "1"), ("addr", "a1")]

/-! ## The claims -/

/-- C1 (amended): a payment callback with a valid secret and parsable
parameters that matches an order whose status is already `"delivered"`
attempts no file send, but it does **not** leave the status at
`"delivered"`: the handler's `else` branch explicitly resets the order
to `"pending"`. -/
theorem callback_after_delivered_resets_to_pending
    (env : Env) (sec : String) (ps : Params) (orders storage : Ledger)
    (st v : Int) (order : Order)
    (hsec : getParam ps "secret" "" = sec)
    (hst : parseIntPy (getParam ps "status" "-1") = some st)
    (hv : parseIntPy (pyOr (getParam ps "value" "0") "0") = some v)
    (hlook : dictGet? orders (getParam ps "addr" "") = some order)
    (hdel : order.status = "delivered") :
    (blockonomics_callback env sec ps orders storage).tried = false ∧
    (blockonomics_callback env sec ps orders storage).sent = false ∧
    (dictGet? (blockonomics_callback env sec ps orders storage).orders
        (getParam ps "addr" "")).map Order.status = some "pending" := by
  rw [blockonomics_callback_matched env sec ps orders storage st v order hsec hst hv hlook,
      cb_reconcile_delivered env orders _ order st v _ hdel]
  refine ⟨rfl, rfl, ?_⟩
  rw [dictGet?_dictSet_self]
  rfl

/-- C1 witness: a duplicate fully-paying callback for the already
delivered `a1` order attempts no send and leaves the order `"pending"`. -/
theorem callback_after_delivered_resets_to_pending_witness :
    (blockonomics_callback envOK "s" psConfirmed [("a1", orderDelivered)] []).tried = false ∧
    (blockonomics_callback envOK "s" psConfirmed [("a1", orderDelivered)] []).sent = false ∧
    (dictGet? (blockonomics_callback envOK "s" psConfirmed [("a1", orderDelivered)] []).orders
        (getParam psConfirmed "addr" "")).map Order.status = some "pending" :=
  callback_after_delivered_resets_to_pending envOK "s" psConfirmed
    [("a1", orderDelivered)] [] 2 10000 orderDelivered rfl (by decide) (by decide) rfl rfl

/-- C1 counterexample: the claim says the status is still `"delivered"`
after any callback processed once the order is delivered; here a
fully-confirmed duplicate callback for the delivered `a1` order leaves
it `"pending"`, not `"delivered"`. -/
theorem callback_after_delivered_not_still_delivered :
    (dictGet? [("a1", orderDelivered)] "a1").map Order.status = some "delivered" ∧
    (dictGet? (blockonomics_callback envOK "s" psConfirmed
        [("a1", orderDelivered)] []).orders "a1").map Order.status = some "pending" ∧
    some "pending" ≠ some "delivered" := by
  refine ⟨rfl, ?_, by decide⟩
  rw [blockonomics_callback_matched envOK "s" psConfirmed [("a1", orderDelivered)] []
        2 10000 orderDelivered rfl (by decide) (by decide) rfl]
  have haddr : getParam psConfirmed "addr" "" = "a1" := rfl
  rw [haddr, cb_reconcile_delivered envOK [("a1", orderDelivered)] "a1" orderDelivered
        2 10000 (getParam? psConfirmed "txid") rfl]
  rw [dictGet?_dictSet_self]
  rfl

/-- C2 (amended): while an order's status is currently `"delivered"`, a
single payment callback matching it performs no file send (the delivery
condition requires the status not to be `"delivered"`), and the poll
path only ever selects orders whose status is `"pending"`; the
protection does not extend across callbacks, because the callback that
skipped delivery also resets the status to `"pending"`, after which a
later callback can send again. -/
theorem no_resend_while_delivered
    (env : Env) (sec : String) (ps : Params) (orders storage : Ledger)
    (order : Order) (uid : Option Int)
    (hlook : dictGet? orders (getParam ps "addr" "") = some order)
    (hdel : order.status = "delivered") :
    (blockonomics_callback env sec ps orders storage).tried = false ∧
    (blockonomics_callback env sec ps orders storage).sent = false ∧
    (∀ addr od, find_last_pending orders uid = some (addr, od) →
      od.status = "pending") := by
  have hcb : (blockonomics_callback env sec ps orders storage).tried = false ∧
      (blockonomics_callback env sec ps orders storage).sent = false := by
    by_cases hsec : getParam ps "secret" "" = sec
    · cases hst : parseIntPy (getParam ps "status" "-1") with
      | none =>
        rw [blockonomics_callback_parse_fail env sec ps orders storage hsec (.inl hst)]
        exact ⟨rfl, rfl⟩
      | some st =>
        cases hv : parseIntPy (pyOr (getParam ps "value" "0") "0") with
        | none =>
          rw [blockonomics_callback_parse_fail env sec ps orders storage hsec (.inr hv)]
          exact ⟨rfl, rfl⟩
        | some v =>
          rw [blockonomics_callback_matched env sec ps orders storage st v order hsec hst hv hlook,
              cb_reconcile_delivered env orders _ order st v _ hdel]
          exact ⟨rfl, rfl⟩
    · rw [blockonomics_callback_secret_fail env sec ps orders storage hsec]
      exact ⟨rfl, rfl⟩
  exact ⟨hcb.1, hcb.2, fun addr od hf =>
    (find_last_pending_spec orders uid addr od hf).2.2.1⟩

/-- C2 witness: with the `a1` order delivered, a duplicate confirmed
callback attempts no send, and the pending-order scan (for the same
user) selects only pending orders. -/
theorem no_resend_while_delivered_witness :
    (blockonomics_callback envOK "s" psConfirmed [("a1", orderDelivered)] []).tried = false ∧
    (blockonomics_callback envOK "s" psConfirmed [("a1", orderDelivered)] []).sent = false ∧
    (∀ addr od, find_last_pending [("a1", orderDelivered)] (some 7) = some (addr, od) →
      od.status = "pending") :=
  no_resend_while_delivered envOK "s" psConfirmed [("a1", orderDelivered)] []
    orderDelivered (some 7) rfl rfl

/-- The `a1` order after the under-confirmed duplicate callback: the
partial report is recorded and the status has been reset. -/
def orderReset : Order :=
  { item_key := "item1", user_id := some 7, chat_id := 99, address := "a1",
    amount_btc := 1/10000, status := "pending", txid := some "t1",
    received_sats := 5000 }

/-- C2 counterexample: the claim's temporal reading is false.  Starting
from the delivered `a1` order, a first under-confirmed callback
(status 1) performs no send but resets the status to `"pending"`;
a second, fully-confirmed callback for the same order then performs a
second file send for an order that had already been delivered. -/
theorem second_callback_resends_after_reset :
    (dictGet? [("a1", orderDelivered)] "a1").map Order.status = some "delivered" ∧
    (blockonomics_callback envOK "s" psPartial [("a1", orderDelivered)] []).sent = false ∧
    (blockonomics_callback envOK "s" psConfirmed
      (blockonomics_callback envOK "s" psPartial [("a1", orderDelivered)] []).orders
      (blockonomics_callback envOK "s" psPartial [("a1", orderDelivered)] []).storage).sent
      = true := by
  have hcb1 : blockonomics_callback envOK "s" psPartial [("a1", orderDelivered)] []
      = ⟨200, "ok", [("a1", orderReset)], [("a1", orderReset)], false, false⟩ := by
    rw [blockonomics_callback_matched envOK "s" psPartial [("a1", orderDelivered)] []
          1 5000 orderDelivered rfl (by decide) (by decide) rfl,
        cb_reconcile_delivered envOK [("a1", orderDelivered)] _ orderDelivered
          1 5000 _ rfl]
    rfl
  refine ⟨rfl, ?_, ?_⟩
  · rw [hcb1]
  · rw [hcb1]
    rw [blockonomics_callback_matched envOK "s" psConfirmed [("a1", orderReset)]
          [("a1", orderReset)] 2 10000 orderReset rfl (by decide) (by decide) rfl,
        cb_reconcile_deliver_success envOK [("a1", orderReset)] _ orderReset
          2 10000 _ "items/secret.pdf"
          ⟨rfl, by norm_num [required_sats, pyRound, orderReset], by decide⟩
          rfl ⟨by decide, rfl⟩ rfl]

/-- C3: no execution path sets an order's status to `"delivered"`
without the file send having succeeded.  For an order currently
`"pending"` at key `a`: if the callback leaves it `"delivered"` the
send succeeded, and if no send succeeded it is still `"pending"`;
likewise for `/confirm`, where additionally no send means the order
dict is completely unchanged (so the order can be retried later). -/
theorem no_delivered_without_send
    (env : Env) (sec : String) (ps : Params) (orders storage : Ledger)
    (balance : Except String ℚ) (uid : Option Int) (a : String)
    (hpend : (dictGet? orders a).map Order.status = some "pending") :
    ((blockonomics_callback env sec ps orders storage).sent = false →
      (dictGet? (blockonomics_callback env sec ps orders storage).orders a).map Order.status
        = some "pending") ∧
    ((dictGet? (blockonomics_callback env sec ps orders storage).orders a).map Order.status
        = some "delivered" → (blockonomics_callback env sec ps orders storage).sent = true) ∧
    ((confirm_cmd env balance uid orders storage).sent = false →
      (confirm_cmd env balance uid orders storage).orders = orders) ∧
    ((dictGet? (confirm_cmd env balance uid orders storage).orders a).map Order.status
        = some "delivered" → (confirm_cmd env balance uid orders storage).sent = true) := by
  have hcb : (blockonomics_callback env sec ps orders storage).sent = false →
      (dictGet? (blockonomics_callback env sec ps orders storage).orders a).map Order.status
        = some "pending" := by
    intro hsent
    by_cases hsec : getParam ps "secret" "" = sec
    · cases hst : parseIntPy (getParam ps "status" "-1") with
      | none =>
        rw [blockonomics_callback_parse_fail env sec ps orders storage hsec (.inl hst)]
        exact hpend
      | some st =>
        cases hv : parseIntPy (pyOr (getParam ps "value" "0") "0") with
        | none =>
          rw [blockonomics_callback_parse_fail env sec ps orders storage hsec (.inr hv)]
          exact hpend
        | some v =>
          cases hlook : dictGet? orders (getParam ps "addr" "") with
          | none =>
            rw [blockonomics_callback_unmatched env sec ps orders storage st v hsec hst hv hlook]
            exact hpend
          | some order =>
            rw [blockonomics_callback_matched env sec ps orders storage st v order
                  hsec hst hv hlook] at hsent ⊢
            exact cb_reconcile_no_silent_delivery env orders _ order st v _ a hlook hsent hpend
    · rw [blockonomics_callback_secret_fail env sec ps orders storage hsec]
      exact hpend
  have hcf : (confirm_cmd env balance uid orders storage).sent = false →
      (confirm_cmd env balance uid orders storage).orders = orders := by
    intro hsent
    rcases confirm_cmd_cases env balance uid orders storage with ⟨ho, -, -⟩ | ⟨-, -, -, -, -, hs⟩
    · exact ho
    · rw [hs] at hsent
      cases hsent
  refine ⟨hcb, ?_, hcf, ?_⟩
  · intro hdel
    cases hsent : (blockonomics_callback env sec ps orders storage).sent with
    | true => rfl
    | false =>
      rw [hcb hsent] at hdel
      exact absurd hdel (by decide)
  · intro hdel
    cases hsent : (confirm_cmd env balance uid orders storage).sent with
    | true => rfl
    | false =>
      rw [hcf hsent, hpend] at hdel
      exact absurd hdel (by decide)

/-- C3 witness: a fully-paying callback whose document send raises
(`sendOk = false`) leaves the pending `a1` order `"pending"`, and the
conditional guarantees hold at this concrete input. -/
theorem no_delivered_without_send_witness :
    ((blockonomics_callback { envOK with sendOk := false } "s" psConfirmed
        [("a1", orderPending)] []).sent = false →
      (dictGet? (blockonomics_callback { envOK with sendOk := false } "s" psConfirmed
          [("a1", orderPending)] []).orders "a1").map Order.status = some "pending") ∧
    ((dictGet? (blockonomics_callback { envOK with sendOk := false } "s" psConfirmed
        [("a1", orderPending)] []).orders "a1").map Order.status = some "delivered" →
      (blockonomics_callback { envOK with sendOk := false } "s" psConfirmed
        [("a1", orderPending)] []).sent = true) ∧
    ((confirm_cmd { envOK with sendOk := false } (.ok (1/10000)) (some 7)
        [("a1", orderPending)] []).sent = false →
      (confirm_cmd { envOK with sendOk := false } (.ok (1/10000)) (some 7)
        [("a1", orderPending)] []).orders = [("a1", orderPending)]) ∧
    ((dictGet? (confirm_cmd { envOK with sendOk := false } (.ok (1/10000)) (some 7)
        [("a1", orderPending)] []).orders "a1").map Order.status = some "delivered" →
      (confirm_cmd { envOK with sendOk := false } (.ok (1/10000)) (some 7)
        [("a1", orderPending)] []).sent = true) :=
  no_delivered_without_send { envOK with sendOk := false } "s" psConfirmed
    [("a1", orderPending)] [] (.ok (1/10000)) (some 7) "a1" rfl

/-- C4 (amended): only the callback path records the observed amount
and transaction id.  A matched callback always writes `received_sats`
and `txid` onto the order whatever the outcome of the delivery
decision; the poll-driven confirm path never modifies these two fields
of any order (on any outcome it changes at most the selected order's
`status`). -/
theorem observability_fields_only_callback
    (env : Env) (sec : String) (ps : Params) (orders storage : Ledger)
    (st v : Int) (order : Order) (balance : Except String ℚ) (uid : Option Int)
    (hnodup : (dictKeys orders).Nodup)
    (hsec : getParam ps "secret" "" = sec)
    (hst : parseIntPy (getParam ps "status" "-1") = some st)
    (hv : parseIntPy (pyOr (getParam ps "value" "0") "0") = some v)
    (hlook : dictGet? orders (getParam ps "addr" "") = some order) :
    ((dictGet? (blockonomics_callback env sec ps orders storage).orders
        (getParam ps "addr" "")).map (fun o => (o.received_sats, o.txid))
      = some (v, getParam? ps "txid")) ∧
    (∀ a, (dictGet? (confirm_cmd env balance uid orders storage).orders a).map
        (fun o => (o.received_sats, o.txid))
      = (dictGet? orders a).map (fun o => (o.received_sats, o.txid))) := by
  constructor
  · rw [blockonomics_callback_matched env sec ps orders storage st v order hsec hst hv hlook]
    obtain ⟨o', h1, h2, h3, -⟩ := cb_reconcile_fields env orders (getParam ps "addr" "")
      order st v (getParam? ps "txid")
    rw [h1, dictGet?_dictSet_self, Option.map_some', h2, h3]
  · intro a
    rcases confirm_cmd_cases env balance uid orders storage with
      ⟨ho, -, -⟩ | ⟨addr, od, hf, ho, -, -⟩
    · rw [ho]
    · rw [ho]
      by_cases ha : a = addr
      · subst ha
        rw [dictGet?_dictSet_self]
        have hmem := (find_last_pending_spec orders uid a od hf).1
        rw [dictGet?_of_mem_nodup orders a od hmem hnodup]
        rfl
      · rw [dictGet?_dictSet_ne _ _ _ _ ha]

/-- C4 witness: a partial callback records 5000 sats and the txid on
the pending `a1` order, and a confirm pass (reporting a nonzero
balance) leaves every order's `received_sats`/`txid` unchanged. -/
theorem observability_fields_only_callback_witness :
    ((dictGet? (blockonomics_callback envOK "s" psPartial [("a1", orderPending)] []).orders
        (getParam psPartial "addr" "")).map (fun o => (o.received_sats, o.txid))
      = some ((5000 : Int), getParam? psPartial "txid")) ∧
    (∀ a, (dictGet? (confirm_cmd envOK (.ok (5/100000)) (some 7)
        [("a1", orderPending)] []).orders a).map (fun o => (o.received_sats, o.txid))
      = (dictGet? [("a1", orderPending)] a).map (fun o => (o.received_sats, o.txid))) :=
  observability_fields_only_callback envOK "s" psPartial [("a1", orderPending)] []
    1 5000 orderPending (.ok (5/100000)) (some 7) (by decide) rfl (by decide) (by decide) rfl

/-- C4 counterexample: the claim says both reconciliation paths record
the observed amount and transaction id; but a `/confirm` pass that
polls a balance of 0.00005 BTC against the pending `a1` order (0 sats
recorded so far) leaves the order dict — in particular its
`received_sats` and `txid` — completely unchanged. -/
theorem confirm_does_not_record_received :
    (confirm_cmd envOK (.ok (5/100000)) (some 7) [("a1", orderPending)] []).orders
      = [("a1", orderPending)] ∧
    orderPending.received_sats = 0 ∧
    (5/100000 : ℚ) ≠ 0 := by
  refine ⟨?_, rfl, by norm_num⟩
  rw [confirm_cmd_shortfall envOK (some 7) [("a1", orderPending)] [] "a1" orderPending
        (5/100000) rfl (by norm_num [orderPending])]

/-- C5: every payment callback with a valid secret and parsable
parameters whose address matches an order writes the reported amount
and transaction id onto that order and persists the dict
(`save_json` runs at the end of the update block), whatever the
delivery decision — in particular also when the confirmation threshold
is not met. -/
theorem callback_records_and_persists
    (env : Env) (sec : String) (ps : Params) (orders storage : Ledger)
    (st v : Int) (order : Order)
    (hsec : getParam ps "secret" "" = sec)
    (hst : parseIntPy (getParam ps "status" "-1") = some st)
    (hv : parseIntPy (pyOr (getParam ps "value" "0") "0") = some v)
    (hlook : dictGet? orders (getParam ps "addr" "") = some order) :
    ∃ o', dictGet? (blockonomics_callback env sec ps orders storage).orders
        (getParam ps "addr" "") = some o' ∧
      o'.received_sats = v ∧ o'.txid = getParam? ps "txid" ∧
      (blockonomics_callback env sec ps orders storage).storage
        = (blockonomics_callback env sec ps orders storage).orders ∧
      (blockonomics_callback env sec ps orders storage).httpStatus = 200 := by
  rw [blockonomics_callback_matched env sec ps orders storage st v order hsec hst hv hlook]
  obtain ⟨o', h1, h2, h3, -⟩ := cb_reconcile_fields env orders (getParam ps "addr" "")
    order st v (getParam? ps "txid")
  exact ⟨o', by rw [h1, dictGet?_dictSet_self], h2, h3, rfl, rfl⟩

/-- C5 witness: the under-confirmed partial callback (status 1,
5000 sats < 10000 required) records amount and txid on the pending
`a1` order and persists the dict. -/
theorem callback_records_and_persists_witness :
    ∃ o', dictGet? (blockonomics_callback envOK "s" psPartial
        [("a1", orderPending)] []).orders (getParam psPartial "addr" "") = some o' ∧
      o'.received_sats = 5000 ∧ o'.txid = getParam? psPartial "txid" ∧
      (blockonomics_callback envOK "s" psPartial [("a1", orderPending)] []).storage
        = (blockonomics_callback envOK "s" psPartial [("a1", orderPending)] []).orders ∧
      (blockonomics_callback envOK "s" psPartial [("a1", orderPending)] []).httpStatus = 200 :=
  callback_records_and_persists envOK "s" psPartial [("a1", orderPending)] []
    1 5000 orderPending rfl (by decide) (by decide) rfl

/-- C6: a payment callback with a valid secret and parsable parameters
whose address matches no order answers `200 ok` and changes nothing:
neither the in-memory order dict nor the persisted copy is touched
(the handler returns before the update block, so `save_json` never
runs). -/
theorem callback_unknown_address_no_change
    (env : Env) (sec : String) (ps : Params) (orders storage : Ledger)
    (st v : Int)
    (hsec : getParam ps "secret" "" = sec)
    (hst : parseIntPy (getParam ps "status" "-1") = some st)
    (hv : parseIntPy (pyOr (getParam ps "value" "0") "0") = some v)
    (hlook : dictGet? orders (getParam ps "addr" "") = none) :
    blockonomics_callback env sec ps orders storage
      = ⟨200, "ok", orders, storage, false, false⟩ :=
  blockonomics_callback_unmatched env sec ps orders storage st v hsec hst hv hlook

/-- C6 witness: a confirmed callback for the unbound address `zz`
against a ledger holding only `a1` responds `200 ok` with both the
dict and the stored copy untouched. -/
theorem callback_unknown_address_no_change_witness :
    blockonomics_callback envOK "s" psUnknown [("a1", orderPending)] [("a1", orderPending)]
      = ⟨200, "ok", [("a1", orderPending)], [("a1", orderPending)], false, false⟩ :=
  callback_unknown_address_no_change envOK "s" psUnknown
    [("a1", orderPending)] [("a1", orderPending)] 2 10000 rfl (by decide) (by decide) rfl

/-- C7: whenever requesting a fresh receiving address fails — the
provider is unreachable, answers a non-200 status, or omits (or sends
an empty) `address` field — the buy flow reports a gateway error to the
buyer and creates no order: both the in-memory dict and the persisted
copy are exactly what they were before the buy attempt. -/
theorem buy_gateway_failure_creates_no_order
    (items : List (String × Item)) (apiKey : String) (resp : GatewayResp)
    (item_key : String) (uid : Option Int) (chat : Int)
    (orders storage : Ledger) (item : Item)
    (hitem : dictGet? items item_key = some item)
    (hfail : resp = none ∨ (∃ st d, resp = some (st, d) ∧ st ≠ 200) ∨
             (∃ st, resp = some (st, none)) ∨ (∃ st, resp = some (st, some ""))) :
    ∃ e, buy_item items apiKey resp item_key uid chat orders storage
      = ⟨orders, storage, .gatewayError e⟩ := by
  obtain ⟨e, he⟩ := blockonomics_new_address_fails apiKey resp hfail
  refine ⟨e, ?_⟩
  unfold buy_item
  rw [hitem, he]

/-- C7 witness: with the provider unreachable, buying `item1` reports
a gateway error and leaves the singleton ledger untouched. -/
theorem buy_gateway_failure_creates_no_order_witness :
    ∃ e, buy_item envOK.items "k" none "item1" (some 7) 99
        [("a1", orderPending)] [("a1", orderPending)]
      = ⟨[("a1", orderPending)], [("a1", orderPending)], .gatewayError e⟩ :=
  buy_gateway_failure_creates_no_order envOK.items "k" none "item1" (some 7) 99
    [("a1", orderPending)] [("a1", orderPending)]
    { name := "Dark Secret Card", price_btc := 1/10000, file_path := "items/secret.pdf" }
    rfl (.inl rfl)

/-- C8: the confirm command's selection and shortfall behaviour.
When the ledger holds no pending order of the requesting user the
reply is NO_PENDING and nothing changes; when the reverse-order scan
selects an order it is a pending order of that user and no later
created (further right) order of that user is pending; and when the
polled balance plus the 1e-12 epsilon is below the amount due, the
reply reports the shortfall `amount_due - received` and the order dict
and stored copy are untouched (the order stays pending). -/
theorem confirm_selection_and_shortfall
    (env : Env) (balance : Except String ℚ) (uid : Option Int)
    (orders storage : Ledger) :
    ((∀ p ∈ orders, ¬(p.2.user_id = uid ∧ p.2.status = "pending")) →
      confirm_cmd env balance uid orders storage
        = ⟨orders, storage, .noPending, false, false⟩) ∧
    (∀ addr od, find_last_pending orders uid = some (addr, od) →
      (addr, od) ∈ orders ∧ od.user_id = uid ∧ od.status = "pending" ∧
      ∃ l1 l2, orders = l1 ++ (addr, od) :: l2 ∧
        ∀ q ∈ l2, ¬(q.2.user_id = uid ∧ q.2.status = "pending")) ∧
    (∀ addr od received, find_last_pending orders uid = some (addr, od) →
      balance = .ok received → ¬ received + 1/1000000000000 ≥ od.amount_btc →
      confirm_cmd env balance uid orders storage
        = ⟨orders, storage,
           .notConfirmed received od.amount_btc (od.amount_btc - received),
           false, false⟩) := by
  refine ⟨?_, ?_, ?_⟩
  · intro h
    exact confirm_cmd_none env balance uid orders storage (find_last_pending_none orders uid h)
  · exact fun addr od hf => find_last_pending_spec orders uid addr od hf
  · intro addr od received hf hb hlt
    subst hb
    exact confirm_cmd_shortfall env uid orders storage addr od received hf hlt

/-- C8 witness: scenario 3 — polled balance 0.00005 BTC against
0.0001 BTC due reports the 0.00005 shortfall and leaves the singleton
ledger (and stored copy) unchanged, the order still pending. -/
theorem confirm_selection_and_shortfall_witness :
    confirm_cmd envOK (.ok (5/100000)) (some 7) [("a1", orderPending)] []
      = ⟨[("a1", orderPending)], [],
         .notConfirmed (5/100000) (1/10000) (1/10000 - 5/100000), false, false⟩ := by
  have h := (confirm_selection_and_shortfall envOK (.ok (5/100000)) (some 7)
      [("a1", orderPending)] []).2.2 "a1" orderPending (5/100000) rfl rfl
      (by norm_num [orderPending])
  exact h

/-- C9: saving the order ledger and loading it back reproduces the
identical address→order mapping (stated for ledgers with no duplicate
address, the invariant of a Python dict). -/
theorem save_load_roundtrip (l : Ledger) (h : (dictKeys l).Nodup) :
    load_json_orders (some (save_json_orders l)) = l := by
  unfold load_json_orders
  dsimp only
  rw [jsonToLedger_save l h]
  rfl

/-- C9 witness: a two-order ledger round-trips through the JSON
encoding unchanged. -/
theorem save_load_roundtrip_witness :
    load_json_orders (some (save_json_orders
        [("a1", orderPending), ("a2", orderDelivered)]))
      = [("a1", orderPending), ("a2", orderDelivered)] :=
  save_load_roundtrip [("a1", orderPending), ("a2", orderDelivered)] (by decide)

/-- C10: a payment callback with a valid secret whose `value` query
parameter is absent or empty is not rejected with HTTP 400 — parsing
substitutes `"0"` (`params.get("value", "0") or "0"`), so the handler
answers 200 and, when the address matches an order, records 0 satoshis
as the order's received amount. -/
theorem callback_missing_value_treated_as_zero
    (env : Env) (sec : String) (ps : Params) (orders storage : Ledger) (st : Int)
    (hsec : getParam ps "secret" "" = sec)
    (hst : parseIntPy (getParam ps "status" "-1") = some st)
    (hval : getParam? ps "value" = none ∨ getParam? ps "value" = some "") :
    (blockonomics_callback env sec ps orders storage).httpStatus = 200 ∧
    (∀ order, dictGet? orders (getParam ps "addr" "") = some order →
      (dictGet? (blockonomics_callback env sec ps orders storage).orders
          (getParam ps "addr" "")).map Order.received_sats = some 0) := by
  have hv : parseIntPy (pyOr (getParam ps "value" "0") "0") = some 0 := by
    rcases hval with h | h
    · have h0 : getParam ps "value" "0" = "0" := by
        unfold getParam
        unfold getParam? at h
        rw [h]
        rfl
      rw [h0]
      decide
    · have h0 : getParam ps "value" "0" = "" := by
        unfold getParam
        unfold getParam? at h
        rw [h]
        rfl
      rw [h0]
      decide
  constructor
  · cases hlook : dictGet? orders (getParam ps "addr" "") with
    | none =>
      rw [blockonomics_callback_unmatched env sec ps orders storage st 0 hsec hst hv hlook]
    | some order =>
      rw [blockonomics_callback_matched env sec ps orders storage st 0 order hsec hst hv hlook]
  · intro order hlook
    rw [blockonomics_callback_matched env sec ps orders storage st 0 order hsec hst hv hlook]
    obtain ⟨o', h1, h2, -⟩ := cb_reconcile_fields env orders (getParam ps "addr" "")
      order st 0 (getParam? ps "txid")
    rw [h1, dictGet?_dictSet_self, Option.map_some', h2]

/-- C10 witness: a callback with no `value` parameter at all still
answers 200 and stores 0 received satoshis on the matched `a1` order. -/
theorem callback_missing_value_treated_as_zero_witness :
    (blockonomics_callback envOK "s" psNoValue [("a1", orderPending)] []).httpStatus = 200 ∧
    (dictGet? (blockonomics_callback envOK "s" psNoValue
        [("a1", orderPending)] []).orders "a1").map Order.received_sats = some 0 := by
  have h := callback_missing_value_treated_as_zero envOK "s" psNoValue
    [("a1", orderPending)] [] 1 rfl (by decide) (.inl rfl)
  exact ⟨h.1, h.2 orderPending rfl⟩

end ShopBot
